import Mathlib

/-!
Shallow embedding of the todo-list reconciliation core (`useTodos` hook):
the `Todo` record, the two-key persistent store (`todos`, `deletedTaskIds`),
and the operations `fetchTodos` (load-and-reconcile), `addTodo`,
`updateTodo`, `deleteTodo`, `toggleComplete`.

Asynchronous storage access is modelled by explicit state passing: every
operation takes the current `Store` and returns the `Store` after its
writes.  The network fetch outcome is an explicit argument
(`Except Unit (List Todo)`): `Except.error` models a rejected fetch
promise, whose rejection the source does not catch.
-/

namespace TodoList

/-- The `Todo` interface: `id: number`, `title: string`,
`description?: string`, `completed: boolean`, `isSynced?: boolean`.
Optional fields are `Option`s; `none` models an absent property. -/
structure Todo where
  id : Int
  title : String
  description : Option String
  completed : Bool
  isSynced : Option Bool
deriving DecidableEq, Repr

/-- The durable key-value store: key `todos` holds the task list,
key `deletedTaskIds` holds the tombstone list. -/
structure Store where
  todos : List Todo
  deletedTaskIds : List Int
deriving DecidableEq, Repr

/-- The store before any write: both keys absent, parsed as empty lists. -/
def Store.empty : Store := { todos := [], deletedTaskIds := [] }

/-- The spread `\x7b...todo, isSynced: true\x7d` applied to each server todo. -/
def tagSynced (t : Todo) : Todo := { t with isSynced := some true }

/-- Load-and-reconcile, `fetchTodos`: reads local todos and deleted ids; when connected it
tags the server todos as synced, filters out tombstoned ids, filters out
ids already present locally, appends the remainder to the local list,
persists and returns the merged list.  When offline it returns the local
list without writing.  A rejected fetch (`Except.error`) propagates:
the source awaits `fetch` with no catch, so the function's promise
rejects before any write. -/
def fetchTodos (store : Store) (isConnected : Bool)
    (remote : Except Unit (List Todo)) : Except Unit (List Todo) × Store :=
  let parsedTodos := store.todos
  let parsedDeletedTaskIds := store.deletedTaskIds
  if isConnected then
    match remote with
    | Except.error e => (Except.error e, store)
    | Except.ok serverTodos =>
      let serverTodosWithSync :=
        (serverTodos.map tagSynced).filter
          (fun todo => !parsedDeletedTaskIds.contains todo.id)
      let filteredServerTodos :=
        serverTodosWithSync.filter
          (fun serverTodo =>
            !parsedTodos.any (fun localTodo => localTodo.id == serverTodo.id))
      let mergedTodos := parsedTodos ++ filteredServerTodos
      (Except.ok mergedTodos, { store with todos := mergedTodos })
  else
    (Except.ok parsedTodos, store)

/-- Add, `addTodo`: prepend `\x7b...newTodo, isSynced: false\x7d` to the local list
and persist. -/
def addTodo (store : Store) (newTodo : Todo) : Store :=
  { store with todos := { newTodo with isSynced := some false } :: store.todos }

/-- The spread `\x7b...todo, ...updatedTodo, isSynced: false\x7d`: every field
present on `updatedTodo` overwrites `todo`'s, an absent optional field
leaves `todo`'s value, and `isSynced` is forced to `false`. -/
def spreadMerge (todo updatedTodo : Todo) : Todo :=
  { id := updatedTodo.id
    title := updatedTodo.title
    description := updatedTodo.description.orElse fun _ => todo.description
    completed := updatedTodo.completed
    isSynced := some false }

/-- Update, `updateTodo`: map over the local list, replacing each entry whose id
equals `updatedTodo.id` by the spread-merged record, and persist. -/
def updateTodo (store : Store) (updatedTodo : Todo) : Store :=
  { store with
    todos := store.todos.map fun todo =>
      if todo.id == updatedTodo.id then spreadMerge todo updatedTodo else todo }

/-- Delete, `deleteTodo`: filter out every entry with the given id, persist the
remainder, and append the id to the tombstone list unconditionally. -/
def deleteTodo (store : Store) (i : Int) : Store :=
  { todos := store.todos.filter fun todo => todo.id != i
    deletedTaskIds := store.deletedTaskIds ++ [i] }

/-- Toggle, `toggleComplete`: `updateTodo` applied to the todo with its
`completed` flag inverted. -/
def toggleComplete (store : Store) (todo : Todo) : Store :=
  updateTodo store { todo with completed := !todo.completed }

/-- One presentation-facing operation, used to state the all-sequences
uniqueness invariant. -/
inductive Op where
  | add (t : Todo)
  | update (t : Todo)
  | delete (i : Int)
  | toggle (t : Todo)
  | reconcile (isConnected : Bool) (remote : Except Unit (List Todo))

/-- Apply one operation to the store, keeping only its post-state. -/
def applyOp (s : Store) : Op → Store
  | Op.add t => addTodo s t
  | Op.update t => updateTodo s t
  | Op.delete i => deleteTodo s i
  | Op.toggle t => toggleComplete s t
  | Op.reconcile c r => (fetchTodos s c r).2

/-- Run a sequence of operations from a starting store. -/
def runOps (s : Store) (ops : List Op) : Store := ops.foldl applyOp s

/-- Side condition on one operation: an added task carries an id not
already stored, and a successful fetch delivers a remote list with
pairwise-distinct ids.  The other operations need no condition. -/
def opOk (s : Store) : Op → Prop
  | Op.add t => t.id ∉ s.todos.map Todo.id
  | Op.reconcile _ r => ∀ R, r = Except.ok R → (R.map Todo.id).Nodup
  | _ => True

/-- The side condition holds at every step of a run. -/
inductive OpsOk : Store → List Op → Prop
  | nil (s : Store) : OpsOk s []
  | cons {s : Store} {op : Op} {ops : List Op} :
      opOk s op → OpsOk (applyOp s op) ops → OpsOk s (op :: ops)

/-- A sample task used in concrete evaluations. -/
def t1 : Todo :=
  { id := 1, title := "A", description := none, completed := false,
    isSynced := none }

/-- A second sample task. -/
def t2 : Todo :=
  { id := 2, title := "B", description := none, completed := false,
    isSynced := none }

/-- Helper: the online successful-fetch branch of `fetchTodos`, written
out with the two filter passes in the source's order. -/
theorem fetchTodos_online_eq (store : Store) (R : List Todo) :
    fetchTodos store true (Except.ok R) =
      (Except.ok (store.todos ++
        ((R.map tagSynced).filter
          (fun t => !store.deletedTaskIds.contains t.id)).filter
          (fun t => !store.todos.any (fun l => l.id == t.id))),
       { todos := store.todos ++
          ((R.map tagSynced).filter
            (fun t => !store.deletedTaskIds.contains t.id)).filter
            (fun t => !store.todos.any (fun l => l.id == t.id)),
         deletedTaskIds := store.deletedTaskIds }) := rfl

/-- C1: online with a successful fetch, `fetchTodos` returns the local
list followed by exactly those remote tasks, tagged `isSynced = true`,
whose id is neither tombstoned nor already present locally, and persists
that concatenation as the new local task list. -/
theorem fetchTodos_online_merge (store : Store) (R : List Todo) :
    fetchTodos store true (Except.ok R) =
      (Except.ok (store.todos ++ (R.map tagSynced).filter
          (fun t => !store.deletedTaskIds.contains t.id &&
            !store.todos.any (fun l => l.id == t.id))),
       { todos := store.todos ++ (R.map tagSynced).filter
          (fun t => !store.deletedTaskIds.contains t.id &&
            !store.todos.any (fun l => l.id == t.id)),
         deletedTaskIds := store.deletedTaskIds }) := by
  rw [fetchTodos_online_eq, List.filter_filter]
  simp [Bool.and_comm]

/-- C3 counterexample: online with a failing fetch, `fetchTodos` does not
return the local tasks; the rejection propagates to the caller. -/
theorem fetchTodos_online_error_not_local :
    (fetchTodos { todos := [t1], deletedTaskIds := [] } true
        (Except.error ())).1 ≠ Except.ok [t1] :=
  fun h => Except.noConfusion h

/-- C3 (amended): online with a failing fetch, `fetchTodos` propagates
the error to the caller and leaves the store unchanged; the local list is
returned unchanged only on the offline branch. -/
theorem fetchTodos_online_error (store : Store) :
    fetchTodos store true (Except.error ()) = (Except.error (), store) := rfl

/-- C5: offline, `fetchTodos` returns exactly the local tasks, each
unmodified, and writes nothing: both store keys are unchanged. -/
theorem fetchTodos_offline (store : Store) (remote : Except Unit (List Todo)) :
    fetchTodos store false remote = (Except.ok store.todos, store) := rfl

/-- C10: `deleteTodo` appends the id to the tombstone list
unconditionally, so that list grows by exactly one element per call and
may come to hold duplicates and ids that never named a stored task. -/
theorem deleteTodo_appends_tombstone (s : Store) (i : Int) :
    (deleteTodo s i).deletedTaskIds = s.deletedTaskIds ++ [i] ∧
    (deleteTodo s i).deletedTaskIds.length = s.deletedTaskIds.length + 1 := by
  refine ⟨rfl, ?_⟩
  simp [deleteTodo]

/-- C2 counterexample: with local list `[t1]`, tombstones `[1]` and an
empty remote list, the persisted merge still holds a task whose id is in
the tombstone list — local tasks are never filtered against it. -/
theorem fetchTodos_keeps_tombstoned_local :
    ¬ (∀ t ∈ (fetchTodos { todos := [t1], deletedTaskIds := [1] } true
          (Except.ok [])).2.todos,
        t.id ∉ ({ todos := [t1], deletedTaskIds := [1] } : Store).deletedTaskIds) := by
  decide

/-- C2 (amended): only remote tasks are screened against the tombstone
list, so when no stored local task has a tombstoned id, every task in
the list that an online successful `fetchTodos` persists — which is also
the list it returns — has an id outside the tombstone list. -/
theorem fetchTodos_result_respects_tombstones (store : Store) (R : List Todo)
    (h : ∀ t ∈ store.todos, t.id ∉ store.deletedTaskIds) :
    (fetchTodos store true (Except.ok R)).1 =
      Except.ok (fetchTodos store true (Except.ok R)).2.todos ∧
    ∀ t ∈ (fetchTodos store true (Except.ok R)).2.todos,
      t.id ∉ store.deletedTaskIds := by
  rw [fetchTodos_online_eq]
  refine ⟨rfl, ?_⟩
  intro t ht
  rcases List.mem_append.mp ht with hL | hF
  · exact h t hL
  · have h1 := (List.mem_filter.mp (List.mem_filter.mp hF).1).2
    simpa using h1

/-- Helper: a remote task surviving the tombstone filter always collides
on id with the merged list, because it is either a local id already or
it survives the local-collision filter and lands in the merged tail. -/
theorem merged_absorbs_remote (L : List Todo) (D : List Int) (R : List Todo) :
    ∀ x ∈ (R.map tagSynced).filter (fun t => !D.contains t.id),
      (L ++ ((R.map tagSynced).filter (fun t => !D.contains t.id)).filter
          (fun t => !L.any (fun l => l.id == t.id))).any
        (fun l => l.id == x.id) = true := by
  intro x hx
  rw [List.any_append]
  by_cases hL : L.any (fun l => l.id == x.id) = true
  · rw [hL, Bool.true_or]
  · have hxF : x ∈ ((R.map tagSynced).filter (fun t => !D.contains t.id)).filter
        (fun t => !L.any (fun l => l.id == t.id)) :=
      List.mem_filter.mpr ⟨hx, by simp [hL]⟩
    have hFany : (((R.map tagSynced).filter (fun t => !D.contains t.id)).filter
        (fun t => !L.any (fun l => l.id == t.id))).any
          (fun l => l.id == x.id) = true :=
      List.any_eq_true.mpr ⟨x, hxF, by simp⟩
    rw [hFany, Bool.or_true]

/-- Helper: when every remote task surviving the tombstone filter
collides on id with some stored task, an online successful `fetchTodos`
adds nothing: it returns the stored list and leaves the store unchanged. -/
theorem fetchTodos_online_stable (s : Store) (R : List Todo)
    (habs : ∀ x ∈ (R.map tagSynced).filter
        (fun t => !s.deletedTaskIds.contains t.id),
      s.todos.any (fun l => l.id == x.id) = true) :
    fetchTodos s true (Except.ok R) = (Except.ok s.todos, s) := by
  rw [fetchTodos_online_eq]
  have hG : ((R.map tagSynced).filter
      (fun t => !s.deletedTaskIds.contains t.id)).filter
      (fun t => !s.todos.any (fun l => l.id == t.id)) = [] := by
    rw [List.filter_eq_nil_iff]
    intro x hx
    simp [habs x hx]
  rw [hG]
  simp

/-- C4: running `fetchTodos` online a second time, against the same
remote list and from the store the first run persisted, returns the same
merged list and the same store — no task is duplicated. -/
theorem fetchTodos_idempotent (store : Store) (R : List Todo) :
    fetchTodos ((fetchTodos store true (Except.ok R)).2) true (Except.ok R) =
      fetchTodos store true (Except.ok R) := by
  rw [fetchTodos_online_eq store R]
  apply fetchTodos_online_stable
  intro x hx
  exact merged_absorbs_remote store.todos store.deletedTaskIds R x hx

/-- Helper: `updateTodo` never changes the stored id sequence — a
replaced entry keeps its id, since it is replaced only on an id match. -/
theorem updateTodo_map_id (s : Store) (u : Todo) :
    (updateTodo s u).todos.map Todo.id = s.todos.map Todo.id := by
  show (s.todos.map fun todo =>
      if todo.id == u.id then spreadMerge todo u else todo).map Todo.id = _
  rw [List.map_map]
  apply List.map_congr_left
  intro a _
  by_cases h : (a.id == u.id) = true
  · have ha : a.id = u.id := eq_of_beq h
    simp [Function.comp, h, spreadMerge, ha]
  · simp [Function.comp, h]

/-- Helper: deleting preserves distinctness of stored ids (the remaining
list is a sublist of the original). -/
theorem deleteTodo_nodup_ids (s : Store) (i : Int)
    (hs : (s.todos.map Todo.id).Nodup) :
    ((deleteTodo s i).todos.map Todo.id).Nodup :=
  List.Nodup.sublist ((List.filter_sublist s.todos).map Todo.id) hs

/-- Helper: reconciliation preserves distinctness of stored ids, given
that a successfully fetched remote list has distinct ids: the appended
remote tail keeps distinct ids and the local-collision filter makes its
ids disjoint from the stored ones. -/
theorem fetchTodos_nodup_ids (s : Store) (c : Bool)
    (r : Except Unit (List Todo))
    (hs : (s.todos.map Todo.id).Nodup)
    (hr : ∀ R, r = Except.ok R → (R.map Todo.id).Nodup) :
    ((fetchTodos s c r).2.todos.map Todo.id).Nodup := by
  cases c
  · exact hs
  · cases r with
    | error e => exact hs
    | ok R =>
      have hR := hr R rfl
      have h2 : (fetchTodos s true (Except.ok R)).2.todos =
          s.todos ++ ((R.map tagSynced).filter
            (fun t => !s.deletedTaskIds.contains t.id)).filter
            (fun t => !s.todos.any (fun l => l.id == t.id)) := rfl
      rw [h2, List.map_append, List.nodup_append]
      refine ⟨hs, ?_, ?_⟩
      · have hsub : (((R.map tagSynced).filter
            (fun t => !s.deletedTaskIds.contains t.id)).filter
            (fun t => !s.todos.any (fun l => l.id == t.id))).Sublist
              (R.map tagSynced) :=
          (List.filter_sublist _).trans (List.filter_sublist _)
        have hmap := hsub.map Todo.id
        have hids : (R.map tagSynced).map Todo.id = R.map Todo.id := by
          rw [List.map_map]
          apply List.map_congr_left
          intro a _
          rfl
        rw [hids] at hmap
        exact List.Nodup.sublist hmap hR
      · intro a haL haF
        obtain ⟨t, htF, hta⟩ := List.mem_map.mp haF
        obtain ⟨l, hlL, hla⟩ := List.mem_map.mp haL
        have hq := (List.mem_filter.mp htF).2
        have hnone : ∀ x ∈ s.todos, ¬ (x.id = t.id) := by simpa using hq
        exact hnone l hlL (hla.trans hta.symm)

/-- Helper: adding a task whose id is not yet stored preserves
distinctness of stored ids. -/
theorem addTodo_nodup_ids (s : Store) (t : Todo)
    (hs : (s.todos.map Todo.id).Nodup) (ht : t.id ∉ s.todos.map Todo.id) :
    ((addTodo s t).todos.map Todo.id).Nodup := by
  rw [show (addTodo s t).todos = { t with isSynced := some false } :: s.todos
    from rfl, List.map_cons]
  exact List.nodup_cons.mpr ⟨ht, hs⟩

/-- Helper: each operation preserves distinctness of stored ids under
its side condition. -/
theorem applyOp_nodup_ids (s : Store) (op : Op)
    (hs : (s.todos.map Todo.id).Nodup) (hop : opOk s op) :
    ((applyOp s op).todos.map Todo.id).Nodup := by
  cases op with
  | add t => exact addTodo_nodup_ids s t hs hop
  | update u =>
    show ((updateTodo s u).todos.map Todo.id).Nodup
    rw [updateTodo_map_id]
    exact hs
  | delete i => exact deleteTodo_nodup_ids s i hs
  | toggle t =>
    show ((updateTodo s { t with completed := !t.completed }).todos.map
      Todo.id).Nodup
    rw [updateTodo_map_id]
    exact hs
  | reconcile c r => exact fetchTodos_nodup_ids s c r hs hop

/-- Helper: distinctness of stored ids is an inductive invariant of any
run whose steps satisfy their side conditions. -/
theorem runOps_nodup_ids (ops : List Op) :
    ∀ s : Store, (s.todos.map Todo.id).Nodup → OpsOk s ops →
      ((runOps s ops).todos.map Todo.id).Nodup := by
  induction ops with
  | nil =>
    intro s hs _
    exact hs
  | cons op ops ih =>
    intro s hs h
    cases h with
    | cons hop hops => exact ih (applyOp s op) (applyOp_nodup_ids s op hs hop) hops

/-- C6 counterexample: from the empty store, adding the same task twice
leaves two stored tasks with the same id — `addTodo` prepends without
checking for an existing id. -/
theorem runOps_duplicate_id :
    ¬ ((runOps Store.empty [Op.add t1, Op.add t1]).todos.map Todo.id).Nodup := by
  decide

/-- C6 (amended): after any operation sequence from the empty store in
which every `add` carries a not-yet-stored id and every successful fetch
delivers a remote list with distinct ids, the stored ids are pairwise
distinct; without the freshness condition on `add`, duplicates arise. -/
theorem runOps_unique_ids (ops : List Op) (h : OpsOk Store.empty ops) :
    ((runOps Store.empty ops).todos.map Todo.id).Nodup :=
  runOps_nodup_ids ops Store.empty (by simp [Store.empty]) h

/-- Closed instance of the amended uniqueness invariant: one add and one
online reconciliation, side conditions discharged concretely. -/
theorem runOps_unique_ids_witness :
    ((runOps Store.empty
        [Op.add t1, Op.reconcile true (Except.ok [t2])]).todos.map
      Todo.id).Nodup :=
  runOps_unique_ids [Op.add t1, Op.reconcile true (Except.ok [t2])]
    (OpsOk.cons (by simp [opOk, Store.empty])
      (OpsOk.cons (fun R hR => by cases hR; decide) (OpsOk.nil _)))

/-- Closed instance of the tombstone property for a locally-clean store:
applies the amended C2 theorem at a concrete store and remote list. -/
theorem fetchTodos_result_respects_tombstones_witness :
    (∀ t ∈ ({ todos := [t1], deletedTaskIds := [2] } : Store).todos,
      t.id ∉ ({ todos := [t1], deletedTaskIds := [2] } : Store).deletedTaskIds) ∧
    ∀ t ∈ (fetchTodos { todos := [t1], deletedTaskIds := [2] } true
        (Except.ok [t2])).2.todos,
      t.id ∉ ({ todos := [t1], deletedTaskIds := [2] } : Store).deletedTaskIds :=
  ⟨by decide,
   (fetchTodos_result_respects_tombstones
      { todos := [t1], deletedTaskIds := [2] } [t2] (by decide)).2⟩

/-- C7: `deleteTodo` drops every stored entry with the given id (leaving
the list unchanged when none matches), appends the id to the tombstone
list, and a following online successful `fetchTodos` — whose returned
list is its persisted list — contains no task with that id. -/
theorem deleteTodo_spec (s : Store) (i : Int) (R : List Todo) :
    (deleteTodo s i).todos = s.todos.filter (fun t => t.id != i) ∧
    ((∀ t ∈ s.todos, t.id ≠ i) → (deleteTodo s i).todos = s.todos) ∧
    (deleteTodo s i).deletedTaskIds = s.deletedTaskIds ++ [i] ∧
    (fetchTodos (deleteTodo s i) true (Except.ok R)).1 =
      Except.ok (fetchTodos (deleteTodo s i) true (Except.ok R)).2.todos ∧
    ∀ t ∈ (fetchTodos (deleteTodo s i) true (Except.ok R)).2.todos,
      t.id ≠ i := by
  refine ⟨rfl, ?_, rfl, rfl, ?_⟩
  · intro h
    show s.todos.filter (fun t => t.id != i) = s.todos
    rw [List.filter_eq_self]
    intro a ha
    simp [h a ha]
  · intro t ht
    have h2 : (fetchTodos (deleteTodo s i) true (Except.ok R)).2.todos =
        (deleteTodo s i).todos ++ ((R.map tagSynced).filter
          (fun x => !(deleteTodo s i).deletedTaskIds.contains x.id)).filter
          (fun x => !(deleteTodo s i).todos.any (fun l => l.id == x.id)) := rfl
    rw [h2] at ht
    rcases List.mem_append.mp ht with hL | hF
    · have := (List.mem_filter.mp hL).2
      simpa using this
    · have h1 := (List.mem_filter.mp (List.mem_filter.mp hF).1).2
      have hnm : t.id ∉ (deleteTodo s i).deletedTaskIds := by simpa using h1
      intro hti
      apply hnm
      rw [show (deleteTodo s i).deletedTaskIds = s.deletedTaskIds ++ [i] from rfl,
        hti]
      exact List.mem_append_right _ (List.mem_singleton.mpr rfl)

/-- Closed instance of the delete specification: deleting id 2 from
`[t1, t2]` keeps t1 out of a later merge against `[t2]`, and deleting an
absent id 3 leaves the list untouched. -/
theorem deleteTodo_spec_witness :
    t1.id ≠ 2 ∧ (deleteTodo { todos := [t1], deletedTaskIds := [] } 3).todos = [t1] :=
  ⟨(deleteTodo_spec { todos := [t1, t2], deletedTaskIds := [] } 2 [t2]).2.2.2.2
      t1 (by decide),
   (deleteTodo_spec { todos := [t1], deletedTaskIds := [] } 3 []).2.1 (by decide)⟩

/-- C8: `updateTodo` rewrites exactly the entries whose id matches, each
to the spread-merged record whose `isSynced` is forced to `false`,
leaves the rest and the tombstone list unchanged, is the identity on the
store when no stored id matches, and `toggleComplete` is `updateTodo` of
the task with `completed` inverted. -/
theorem updateTodo_toggle_spec (s : Store) (u t : Todo) :
    (updateTodo s u).deletedTaskIds = s.deletedTaskIds ∧
    (updateTodo s u).todos =
      s.todos.map (fun x => if x.id = u.id then spreadMerge x u else x) ∧
    (∀ x, (spreadMerge x u).isSynced = some false) ∧
    ((∀ x ∈ s.todos, x.id ≠ u.id) → updateTodo s u = s) ∧
    toggleComplete s t = updateTodo s { t with completed := !t.completed } := by
  refine ⟨rfl, ?_, fun x => rfl, ?_, rfl⟩
  · show s.todos.map (fun x => if x.id == u.id then spreadMerge x u else x) = _
    apply List.map_congr_left
    intro a _
    by_cases h : a.id = u.id
    · simp [h]
    · simp [h]
  · intro h
    have hmap : s.todos.map
        (fun x => if x.id == u.id then spreadMerge x u else x) = s.todos := by
      have h2 : ∀ a ∈ s.todos,
          (if a.id == u.id then spreadMerge a u else a) = a := by
        intro a ha
        have hne : ¬ ((a.id == u.id) = true) := by simp [h a ha]
        rw [if_neg hne]
      calc s.todos.map (fun x => if x.id == u.id then spreadMerge x u else x)
          = s.todos.map id := List.map_congr_left h2
        _ = s.todos := List.map_id s.todos
    show { s with todos := s.todos.map (fun x => if x.id == u.id then spreadMerge x u else x) } = s
    rw [hmap]

/-- Closed instance of the update specification: updating with an id
absent from the store leaves the store exactly as it was. -/
theorem updateTodo_toggle_spec_witness :
    updateTodo { todos := [t1], deletedTaskIds := [] } t2 =
      { todos := [t1], deletedTaskIds := [] } :=
  (updateTodo_toggle_spec { todos := [t1], deletedTaskIds := [] } t2 t1).2.2.2.1
    (by decide)

/-- C9 counterexample: when the prior list already holds the record
`t1` tagged not-synced, adding `t1` again and reconciling offline yields
a list in which that record does not appear exactly once (it appears
twice). -/
theorem addTodo_duplicate_count :
    ((fetchTodos (addTodo { todos := [{ t1 with isSynced := some false }], deletedTaskIds := [] } t1)
        false (Except.ok [])).1.toOption.getD []).count
      { t1 with isSynced := some false } ≠ 1 := by
  decide

/-- C9 (amended): `addTodo` persists the task, re-tagged not-synced,
prepended to the prior list, touching no tombstone, and — provided no
prior task carries the same id — an offline `fetchTodos` afterwards
returns a list holding that record exactly once. -/
theorem addTodo_spec (s : Store) (t : Todo) (r : Except Unit (List Todo)) :
    (addTodo s t).todos = { t with isSynced := some false } :: s.todos ∧
    (addTodo s t).deletedTaskIds = s.deletedTaskIds ∧
    ((∀ x ∈ s.todos, x.id ≠ t.id) →
      ((fetchTodos (addTodo s t) false r).1.toOption.getD []).count
        { t with isSynced := some false } = 1) := by
  refine ⟨rfl, rfl, ?_⟩
  intro h
  have h0 : (fetchTodos (addTodo s t) false r).1.toOption.getD [] =
      { t with isSynced := some false } :: s.todos := rfl
  rw [h0, List.count_cons]
  have hne : { t with isSynced := some false } ∉ s.todos := by
    intro hmem
    exact h _ hmem rfl
  rw [List.count_eq_zero.mpr hne]
  simp

/-- Closed instance of the add specification: adding t1 over `[t2]` and
reconciling offline shows the not-synced record exactly once. -/
theorem addTodo_spec_witness :
    (∀ x ∈ ({ todos := [t2], deletedTaskIds := [] } : Store).todos,
      x.id ≠ t1.id) ∧
    ((fetchTodos (addTodo { todos := [t2], deletedTaskIds := [] } t1) false
        (Except.ok [])).1.toOption.getD []).count
      { t1 with isSynced := some false } = 1 :=
  ⟨by decide,
   (addTodo_spec { todos := [t2], deletedTaskIds := [] } t1
      (Except.ok [])).2.2 (by decide)⟩

end TodoList
